import Mathlib

/-!
# docker-auto-scale: the control loop of `auto-scaler.js`

A shallow embedding of the capacity planner (`calculateDesiredContainers`),
the scaling operations (`scaleUp`, `scaleDown`), and the simulation loop
(`simulationLoop`) with its four module-level simulation variables.

JavaScript numbers are embedded as `Int`: every number the loop handles is an
integer far below `2 ^ 53`, where the floating point operations used (`+`, `-`,
comparison, `Math.ceil` of a quotient by a positive integer) are exact.
-/

namespace AutoScaler

/-! ## Configuration -/

/-- The numeric fields of the `CONFIG` object that the control loop reads. -/
structure Config where
  MIN_CONTAINERS : Int
  MAX_CONTAINERS : Int
  USERS_PER_CONTAINER : Int
  MAX_USERS_CAPACITY : Int
  SIMULATION_INTERVAL : Int
  USERS_INCREMENT : Int
  USERS_MAX : Int
  USERS_MIN : Int
  ALERT_PAUSE_DURATION : Int
  deriving DecidableEq, Repr

/-- The `CONFIG` object literal of `auto-scaler.js`. -/
def CONFIG : Config where
  MIN_CONTAINERS := 1
  MAX_CONTAINERS := 4
  USERS_PER_CONTAINER := 500
  MAX_USERS_CAPACITY := 2000
  SIMULATION_INTERVAL := 1000
  USERS_INCREMENT := 100
  USERS_MAX := 2000
  USERS_MIN := 400
  ALERT_PAUSE_DURATION := 30

/-! ## Capacity planner -/

/-- `Math.ceil(a / b)` on integers, for a positive divisor `b`: the least integer
not below the quotient, computed with floor division as `-⌊-a / b⌋`
(`mathCeilDiv_eq_ceil` relates it to the ceiling of the rational quotient). -/
def mathCeilDiv (a b : Int) : Int := -((-a) / b)

/-- `calculateDesiredContainers(users)`, with the `CONFIG` it reads made explicit.
The guard `users <= 0` returns the literal `1`. -/
def calculateDesiredContainers (cfg : Config) (users : Int) : Int :=
  if users ≤ 0 then 1
  else
    let needed := mathCeilDiv users cfg.USERS_PER_CONTAINER
    max cfg.MIN_CONTAINERS (min needed cfg.MAX_CONTAINERS)

/-- The planner as the specification words it: the configured minimum when
demand is not positive, otherwise the ceiling of demand over the per-replica
capacity clamped into `[min, max]`. -/
def referencePlanner (cfg : Config) (demand : Int) : Int :=
  if demand ≤ 0 then cfg.MIN_CONTAINERS
  else max cfg.MIN_CONTAINERS
    (min (Int.ceil ((demand : ℚ) / (cfg.USERS_PER_CONTAINER : ℚ))) cfg.MAX_CONTAINERS)

/-- The demands `0, 100, ..., 2000` of the ramp-up. -/
def rampDemands : List Int := (List.range 21).map (fun (k : Nat) => 100 * (k : Int))

/-! ## Runtime records and scaling operations -/

/-- An entry of `docker.listContainers`: the fields the scaler reads. -/
structure ContainerInfo where
  Id : String
  State : String
  deriving DecidableEq, Repr

/-- `Array.prototype.slice(start)` with a single argument: a negative `start`
counts from the end of the array, and the bounds are clamped to the array. -/
def slice {α : Type} (xs : List α) (start : Int) : List α :=
  let len : Int := xs.length
  let k : Int := if start < 0 then max (len + start) 0 else min start len
  xs.drop k.toNat

/-- `scaleUp(current, desired, users)`: one creation attempt per iteration
`i = 0, ..., toCreate - 1` of its loop, each inside its own `try`; an attempt is
recorded by the `instance` label `current + i + 1` it gives the container. -/
def scaleUp (current desired : Int) : List Int :=
  let toCreate := desired - current
  (List.range toCreate.toNat).map (fun (i : Nat) => current + (i : Int) + 1)

/-- `scaleDown(current, desired, users)`: the containers its loop stops and
removes, in the order the loop visits them. `containers` is the listing the
function fetches from the runtime; `toDelete = containers.slice(-toRemove)`. -/
def scaleDown (current desired : Int) (containers : List ContainerInfo) :
    List ContainerInfo :=
  let toRemove := current - desired
  let toDelete := slice containers (-toRemove)
  toDelete

/-- What one pass of the scaling conditional of `simulationLoop` issues:
the creation attempts of `scaleUp` and the terminations of `scaleDown`. -/
structure Reconciliation where
  created : List Int
  deleted : List ContainerInfo
  deriving DecidableEq, Repr

/-- What the runtime answers during one invocation of `simulationLoop`:
`containers` is the result of `getActiveContainers()` (empty when its listing
failed, which that function catches), and `relist` is the answer to the
`docker.listContainers` call that `scaleDown` makes itself, `none` when that
call rejects. That call stands outside the `try` of the loop of `scaleDown`, so
its rejection reaches the `catch` of `simulationLoop`. -/
structure TickRuntime where
  containers : List ContainerInfo
  relist : Option (List ContainerInfo)
  deriving DecidableEq, Repr

/-- A runtime whose listings both succeed with the same containers. -/
def okRuntime (containers : List ContainerInfo) : TickRuntime :=
  { containers := containers, relist := some containers }

/-- The scaling conditional of `simulationLoop` (`if ... scaleUp ... else if ...
scaleDown`). The result is `none` when `scaleDown` is called and its own listing
rejects: the exception leaves `scaleDown` before any container is touched. -/
def scalingStep (cfg : Config) (currentUsers : Int) (rt : TickRuntime) :
    Option Reconciliation :=
  let currentCount : Int := rt.containers.length
  let desired := calculateDesiredContainers cfg currentUsers
  if currentCount < desired ∧ currentUsers ≤ cfg.MAX_USERS_CAPACITY then
    some { created := scaleUp currentCount desired, deleted := [] }
  else if currentCount > desired then
    match rt.relist with
    | some listing => some { created := [], deleted := scaleDown currentCount desired listing }
    | none => none
  else
    some { created := [], deleted := [] }

/-! ## Drain -/

/-- The runtime calls of `cleanup()`: the listing of the scaling group and, for
a container, its stop and its removal. -/
inductive RuntimeOp where
  | list
  | stop (id : String)
  | remove (id : String)
  deriving DecidableEq, Repr

/-- What a run of `cleanup()` did: the stops and removals it called, in order,
and the containers left in the scaling group. -/
structure CleanupResult where
  attempted : List RuntimeOp
  remaining : List ContainerInfo
  deriving DecidableEq, Repr

/-- The `for` loop of `cleanup()` over the listing; `fails` tells which runtime
calls throw. The one `try` of `cleanup()` encloses the whole loop, so a call that
throws ends the loop: the container at hand and all later ones stay in the
group. A container is stopped only when its `State` is `"running"`; one that was
stopped but whose removal threw stays, no longer running. -/
def cleanupLoop (fails : RuntimeOp → Bool) : List ContainerInfo → CleanupResult
  | [] => { attempted := [], remaining := [] }
  | c :: rest =>
    if c.State = "running" then
      if fails (RuntimeOp.stop c.Id) then
        { attempted := [RuntimeOp.stop c.Id], remaining := c :: rest }
      else if fails (RuntimeOp.remove c.Id) then
        { attempted := [RuntimeOp.stop c.Id, RuntimeOp.remove c.Id]
          remaining := { c with State := "exited" } :: rest }
      else
        let r := cleanupLoop fails rest
        { attempted := RuntimeOp.stop c.Id :: RuntimeOp.remove c.Id :: r.attempted
          remaining := r.remaining }
    else
      if fails (RuntimeOp.remove c.Id) then
        { attempted := [RuntimeOp.remove c.Id], remaining := c :: rest }
      else
        let r := cleanupLoop fails rest
        { attempted := RuntimeOp.remove c.Id :: r.attempted, remaining := r.remaining }

/-- `cleanup()` on the scaling group `group`, the containers that
`listContainers` with `all: true` returns. A listing that throws is caught by
the same `try` and nothing is done. The final branch of `simulationLoop` awaits
this function and then calls `process.exit(0)`. -/
def cleanup (fails : RuntimeOp → Bool) (group : List ContainerInfo) : CleanupResult :=
  if fails RuntimeOp.list then { attempted := [], remaining := group }
  else cleanupLoop fails group

/-- No runtime call throws. -/
def noFailure : RuntimeOp → Bool := fun _ => false

/-! ## Simulation state -/

/-- The module-level simulation variables. -/
structure SimState where
  currentUsers : Int
  isIncreasing : Bool
  simulationPaused : Bool
  alertShown : Bool
  deriving DecidableEq, Repr

/-- Where the invocation of `simulationLoop` that raised the alert stands:
not started, inside the countdown loop with loop variable `i`, in the two
second wait after the flags were reset, or past its demand update. The guard
`!alertShown` lets at most one invocation enter the alert branch. -/
inductive AlertPc where
  | idle
  | countdown (i : Int)
  | resumeDelay
  | returned
  deriving DecidableEq, Repr

/-- Whether the process is running, has an invocation in its shutdown sequence
(the five second wait and `cleanup()` before `process.exit(0)`), or has exited. -/
inductive ProcessPhase where
  | running
  | stopping
  | exited
  deriving DecidableEq, Repr

/-- The simulation variables together with the control state of the loop. -/
structure Sys where
  vars : SimState
  alertPc : AlertPc
  phase : ProcessPhase
  deriving DecidableEq, Repr

/-- The values of the simulation variables when `start()` installs the timer. -/
def initVars : SimState where
  currentUsers := 0
  isIncreasing := true
  simulationPaused := false
  alertShown := false

/-- The initial state of the control loop. -/
def initSys : Sys where
  vars := initVars
  alertPc := AlertPc.idle
  phase := ProcessPhase.running

/-! ## The simulation loop -/

/-- The block "Mise à jour du nombre d'utilisateurs" of `simulationLoop`. The
boolean tells whether the branch "Fin de la simulation" was taken. -/
def updateUsers (cfg : Config) (s : SimState) : SimState × Bool :=
  if !s.simulationPaused then
    if s.isIncreasing then
      let u := s.currentUsers + cfg.USERS_INCREMENT
      ({ s with currentUsers := if u > cfg.USERS_MAX then cfg.USERS_MAX else u }, false)
    else
      let u := s.currentUsers - cfg.USERS_INCREMENT
      if u ≤ cfg.USERS_MIN then
        ({ s with currentUsers := cfg.USERS_MIN }, true)
      else
        ({ s with currentUsers := u }, false)
  else
    (s, false)

/-- The demand update on the whole state: taking the final branch starts the
shutdown sequence. -/
def applyUpdate (cfg : Config) (σ : Sys) : Sys :=
  let r := updateUsers cfg σ.vars
  { σ with vars := r.1, phase := if r.2 then ProcessPhase.stopping else σ.phase }

/-- The guard of the alert branch:
`currentUsers >= CONFIG.USERS_MAX && isIncreasing && !alertShown`. -/
def alertCondition (cfg : Config) (s : SimState) : Bool :=
  decide (s.currentUsers ≥ cfg.USERS_MAX) && s.isIncreasing && !s.alertShown

/-- The two assignments on entering the alert branch. -/
def enterAlert (s : SimState) : SimState :=
  { s with alertShown := true, simulationPaused := true }

/-- The two assignments after the countdown ("Passer en mode décroissant"). -/
def resumeDecreasing (s : SimState) : SimState :=
  { s with isIncreasing := false, simulationPaused := false }

/-- What an invocation of `simulationLoop` issues, whether it ended in the
`catch` of the function, and the state it leaves. -/
structure TickResult where
  scaling : Reconciliation
  aborted : Bool
  next : Sys
  deriving DecidableEq, Repr

/-- One invocation of `simulationLoop` by the timer, from its first statement to
its return or, when it takes the alert branch, to the start of the countdown
(where it is suspended and later invocations of the timer run). The statements
between two timer waits run as one step. When the listing of `scaleDown`
rejects, the `catch` of the function ends the invocation: the alert test and
the demand update are skipped and the variables stay as they are. -/
def simulationLoop (cfg : Config) (rt : TickRuntime) (σ : Sys) : TickResult :=
  match scalingStep cfg σ.vars.currentUsers rt with
  | none => { scaling := { created := [], deleted := [] }, aborted := true, next := σ }
  | some scaling =>
    if alertCondition cfg σ.vars then
      { scaling := scaling
        aborted := false
        next := { σ with vars := enterAlert σ.vars
                         alertPc := AlertPc.countdown cfg.ALERT_PAUSE_DURATION } }
    else
      { scaling := scaling, aborted := false, next := applyUpdate cfg σ }

/-- What the end of a shutdown sequence did: the run of `cleanup()` and the
state it leaves. -/
structure ShutdownResult where
  drain : CleanupResult
  next : Sys
  deriving DecidableEq, Repr

/-- The end of the final branch of `simulationLoop`, after its five second
wait: `await cleanup()` on the group that the runtime lists at that moment,
then `process.exit(0)`. -/
def finalBranch (fails : RuntimeOp → Bool) (group : List ContainerInfo) (σ : Sys) :
    ShutdownResult :=
  { drain := cleanup fails group, next := { σ with phase := ProcessPhase.exited } }

/-- One step of the suspended alert invocation: an iteration of the countdown
loop (`i > 0`), the exit from the loop with the reset of the flags, or, after the
two second wait, the demand update that ends the invocation. -/
def alertContinue (cfg : Config) (σ : Sys) : Option Sys :=
  match σ.alertPc with
  | AlertPc.countdown i =>
    if i > 0 then some { σ with alertPc := AlertPc.countdown (i - 1) }
    else some { σ with vars := resumeDecreasing σ.vars, alertPc := AlertPc.resumeDelay }
  | AlertPc.resumeDelay => some { applyUpdate cfg σ with alertPc := AlertPc.returned }
  | _ => none

/-- The steps of the running process: the timer invokes `simulationLoop`, the
suspended alert invocation advances, or a shutdown sequence reaches
`process.exit(0)`. -/
inductive Step (cfg : Config) : Sys → Sys → Prop where
  | tick (σ : Sys) (rt : TickRuntime) :
      σ.phase ≠ ProcessPhase.exited → Step cfg σ (simulationLoop cfg rt σ).next
  | alert (σ σ' : Sys) :
      σ.phase ≠ ProcessPhase.exited → alertContinue cfg σ = some σ' → Step cfg σ σ'
  | exit (σ : Sys) (fails : RuntimeOp → Bool) (group : List ContainerInfo) :
      σ.phase = ProcessPhase.stopping → Step cfg σ (finalBranch fails group σ).next

/-- Zero or more steps. -/
def Steps (cfg : Config) : Sys → Sys → Prop := Relation.ReflTransGen (Step cfg)

/-- The states the process can be in. -/
def Reachable (cfg : Config) (σ : Sys) : Prop := Steps cfg initSys σ

/-- A run: a sequence of states, each a step from the one before. -/
def IsRun (cfg : Config) (run : List Sys) : Prop :=
  run.head? = some initSys ∧ List.Chain' (Step cfg) run

/-- The number of positions of a sequence of states at which `alertShown`
changes from `false` to `true`. -/
def alertFirings : List Sys → Nat
  | a :: b :: rest =>
    (if !a.vars.alertShown && b.vars.alertShown then 1 else 0) + alertFirings (b :: rest)
  | _ => 0

/-- The state after `n` invocations of `simulationLoop` in a row, with the
runtime answering `rt` each time. -/
def ticks (cfg : Config) (rt : TickRuntime) : Nat → Sys → Sys
  | 0, σ => σ
  | n + 1, σ => ticks cfg rt n (simulationLoop cfg rt σ).next

/-- What can happen next in the process: the timer fires (and the runtime
answers `rt`), the suspended alert invocation advances, or a shutdown sequence
runs `cleanup()` on the listed `group`, with the runtime calls in `failing`
throwing, and ends the process. -/
inductive Event where
  | tick (rt : TickRuntime)
  | alert
  | exit (failing : List RuntimeOp) (group : List ContainerInfo)
  deriving DecidableEq, Repr

/-- The state after an event, when the event can happen in the state. -/
def fire (cfg : Config) : Event → Sys → Option Sys
  | Event.tick rt, σ =>
    if σ.phase = ProcessPhase.exited then none
    else some (simulationLoop cfg rt σ).next
  | Event.alert, σ =>
    if σ.phase = ProcessPhase.exited then none else alertContinue cfg σ
  | Event.exit failing group, σ =>
    if σ.phase = ProcessPhase.stopping then
      some (finalBranch (fun op => decide (op ∈ failing)) group σ).next
    else none

/-- The state after a schedule of events, when each can happen in turn. -/
def runEvents (cfg : Config) : List Event → Sys → Option Sys
  | [], σ => some σ
  | e :: es, σ =>
    match fire cfg e σ with
    | some σ' => runEvents cfg es σ'
    | none => none

/-- The states visited by a schedule of events, up to the first event that
cannot happen. -/
def trace (cfg : Config) : List Event → Sys → List Sys
  | [], σ => [σ]
  | e :: es, σ =>
    match fire cfg e σ with
    | some σ' => σ :: trace cfg es σ'
    | none => [σ]

/-- The schedule of the scenario up to the resumption: twenty ticks raise the
demand to 2000, the next tick raises the alert, the countdown runs its thirty
iterations and exits, and the suspended invocation finishes. -/
def scenarioEvents : List Event :=
  List.replicate 21 (Event.tick (okRuntime [])) ++ List.replicate 32 Event.alert

/-- The demand after the update as the specification words it: unchanged when
paused, otherwise one increment up clamped at the ceiling or one increment down
clamped at the floor. -/
def clampedStep (cfg : Config) (s : SimState) : Int :=
  if s.simulationPaused then s.currentUsers
  else if s.isIncreasing then min (s.currentUsers + cfg.USERS_INCREMENT) cfg.USERS_MAX
  else max (s.currentUsers - cfg.USERS_INCREMENT) cfg.USERS_MIN

/-- The invariant of the process under the shipped configuration: demand stays
in `[0, USERS_MAX]`, is at least `USERS_MIN` once the direction is decreasing,
and during the countdown the alert flag and the pause flag are set. -/
def Inv (σ : Sys) : Prop :=
  0 ≤ σ.vars.currentUsers ∧ σ.vars.currentUsers ≤ CONFIG.USERS_MAX ∧
    (σ.vars.isIncreasing = false → CONFIG.USERS_MIN ≤ σ.vars.currentUsers) ∧
    (∀ i, σ.alertPc = AlertPc.countdown i →
      σ.vars.alertShown = true ∧ σ.vars.simulationPaused = true ∧
        CONFIG.USERS_MIN ≤ σ.vars.currentUsers)

/-- What holds from the moment the alert branch is entered: the alert flag is
set; during the countdown the simulation is paused; after the countdown the
direction is decreasing and the simulation is not paused. -/
def AfterAlert (σ : Sys) : Prop :=
  σ.vars.alertShown = true ∧
    match σ.alertPc with
    | AlertPc.idle => False
    | AlertPc.countdown _ => σ.vars.simulationPaused = true
    | AlertPc.resumeDelay => σ.vars.isIncreasing = false ∧ σ.vars.simulationPaused = false
    | AlertPc.returned => σ.vars.isIncreasing = false ∧ σ.vars.simulationPaused = false

/-! ## Concrete inputs used in examples -/

/-- The shipped configuration with the minimum replica count raised to two. -/
def configMinTwo : Config := { CONFIG with MIN_CONTAINERS := 2 }

/-- Four running containers, named in creation order. -/
def containerA : ContainerInfo := { Id := "A", State := "running" }

/-- The second container created. -/
def containerB : ContainerInfo := { Id := "B", State := "running" }

/-- The third container created. -/
def containerC : ContainerInfo := { Id := "C", State := "running" }

/-- The fourth container created. -/
def containerD : ContainerInfo := { Id := "D", State := "running" }

/-- A fifth container, one more than the maximum. -/
def containerE : ContainerInfo := { Id := "E", State := "running" }

/-- Only the stop of container `A` throws. -/
def failStopA : RuntimeOp → Bool := fun op => decide (op = RuntimeOp.stop "A")

/-- The state when the countdown of the alert has just ended: demand 2000,
direction decreasing, not paused. -/
def decreasingStart : Sys where
  vars := { currentUsers := 2000, isIncreasing := false, simulationPaused := false,
            alertShown := true }
  alertPc := AlertPc.resumeDelay
  phase := ProcessPhase.running

/-- The state during the countdown of the alert: demand 2000, paused. -/
def pausedAtCeiling : Sys where
  vars := { currentUsers := 2000, isIncreasing := true, simulationPaused := true,
            alertShown := true }
  alertPc := AlertPc.countdown 30
  phase := ProcessPhase.running

/-- The schedule up to the end of the countdown: twenty ticks raise the demand
to 2000, the next tick raises the alert, and the countdown runs its thirty
iterations and exits. -/
def countdownEvents : List Event :=
  List.replicate 21 (Event.tick (okRuntime [])) ++ List.replicate 31 Event.alert

/-- Five containers are listed by `getActiveContainers`, and the listing that
`scaleDown` makes itself rejects. -/
def failedRelist : TickRuntime :=
  { containers := [containerA, containerB, containerC, containerD, containerE]
    relist := none }

/-! ## Helper lemmas for the planner -/

theorem mathCeilDiv_eq_ceil (a b : Int) (hb : 0 < b) :
    mathCeilDiv a b = Int.ceil ((a : ℚ) / (b : ℚ)) := by
  have hbq : (0 : ℚ) < (b : ℚ) := by exact_mod_cast hb
  unfold mathCeilDiv
  have h1 : b * (-a / b) + -a % b = -a := Int.ediv_add_emod (-a) b
  have h2 : 0 ≤ -a % b := Int.emod_nonneg _ (ne_of_gt hb)
  have h3 : -a % b < b := Int.emod_lt_of_pos _ hb
  symm
  rw [Int.ceil_eq_iff]
  have e : (a : ℚ) = -((b : ℚ) * ((-a / b : Int) : ℚ)) - ((-a % b : Int) : ℚ) := by
    have : ((b * (-a / b) + -a % b : Int) : ℚ) = ((-a : Int) : ℚ) := by rw [h1]
    push_cast at this
    linarith
  have h2q : (0 : ℚ) ≤ ((-a % b : Int) : ℚ) := by exact_mod_cast h2
  have h3q : ((-a % b : Int) : ℚ) < (b : ℚ) := by exact_mod_cast h3
  constructor
  · rw [lt_div_iff₀ hbq]
    push_cast
    nlinarith
  · rw [div_le_iff₀ hbq]
    push_cast
    nlinarith


/-! ## Capacity planner: claims -/

/-- C1: under the shipped `CONFIG`, `calculateDesiredContainers(d)` is at least
`MIN_CONTAINERS` and at most `MAX_CONTAINERS` for every integer demand `d`
(in particular for every `d ≥ 0`). -/
theorem calculateDesiredContainers_bounds (d : Int) :
    CONFIG.MIN_CONTAINERS ≤ calculateDesiredContainers CONFIG d ∧
      calculateDesiredContainers CONFIG d ≤ CONFIG.MAX_CONTAINERS := by
  unfold calculateDesiredContainers
  by_cases h : d ≤ 0
  · simp [h, CONFIG]
  · simp only [h, if_false, CONFIG]
    exact ⟨le_max_left _ _, max_le (by norm_num) (min_le_right _ _)⟩

/-- C2: under the shipped `CONFIG`, `calculateDesiredContainers` is monotonic
non-decreasing over all integer demands, non-positive ones included. -/
theorem calculateDesiredContainers_mono (d1 d2 : Int) (h : d1 ≤ d2) :
    calculateDesiredContainers CONFIG d1 ≤ calculateDesiredContainers CONFIG d2 := by
  unfold calculateDesiredContainers
  by_cases h1 : d1 ≤ 0
  · by_cases h2 : d2 ≤ 0
    · simp [h1, h2]
    · simp only [h1, h2, if_true, if_false, CONFIG]
      exact le_max_left _ _
  · have h2 : ¬ d2 ≤ 0 := by omega
    simp only [h1, h2, if_false, CONFIG, mathCeilDiv]
    apply max_le_max le_rfl
    apply min_le_min _ le_rfl
    omega

/-- Witness for C2 at the demands 400 and 1600. -/
theorem calculateDesiredContainers_mono_witness :
    (400 : Int) ≤ 1600 ∧
      calculateDesiredContainers CONFIG 400 ≤ calculateDesiredContainers CONFIG 1600 :=
  ⟨by decide, calculateDesiredContainers_mono 400 1600 (by decide)⟩

/-- The planner agrees with the reference planner on every positive demand, for
every configuration with a positive per-replica capacity. -/
theorem calculateDesiredContainers_eq_reference_of_pos (cfg : Config) (d : Int)
    (hcap : 0 < cfg.USERS_PER_CONTAINER) (hd : 0 < d) :
    calculateDesiredContainers cfg d = referencePlanner cfg d := by
  have h : ¬ d ≤ 0 := by omega
  simp only [calculateDesiredContainers, referencePlanner, h, if_false,
    mathCeilDiv_eq_ceil d _ hcap]

/-- C3 (evaluation at the failing input): with `MIN_CONTAINERS = 2`, capacity 500
and maximum 4, at demand 0 the code returns the literal `1`, below the configured
minimum `2` that the reference planner returns. -/
theorem calculateDesiredContainers_zero_demand_min_two :
    0 < configMinTwo.USERS_PER_CONTAINER ∧
      configMinTwo.MIN_CONTAINERS ≤ configMinTwo.MAX_CONTAINERS ∧
      calculateDesiredContainers configMinTwo 0 = 1 ∧
      referencePlanner configMinTwo 0 = 2 ∧
      calculateDesiredContainers configMinTwo 0 ≠ referencePlanner configMinTwo 0 := by
  refine ⟨by decide, by decide, by decide, ?_, ?_⟩
  · simp [referencePlanner, configMinTwo]
  · simp [referencePlanner, calculateDesiredContainers, configMinTwo]

/-- C4 (counterexample): the demand 500 is the sixth of the sequence
0, 100, ..., 2000 and the code gives it one container, `ceil(500 / 500) = 1`,
where the claimed sequence has 2 in sixth place; so the desired counts are not
the claimed sequence. -/
theorem ramp_sequence_not_as_claimed :
    rampDemands.get? 5 = some 500 ∧ calculateDesiredContainers CONFIG 500 = 1 ∧
      rampDemands.map (calculateDesiredContainers CONFIG) ≠
        [1, 1, 1, 1, 1, 2, 2, 2, 2, 2, 3, 3, 3, 3, 3, 4, 4, 4, 4, 4, 4] := by
  refine ⟨by decide, by decide, by decide⟩

/-- C4 (amended): with capacity 500, minimum 1 and maximum 4 (the shipped
`CONFIG`), the 21 demands 0, 100, ..., 2000 yield the desired counts
1,1,1,1,1,1,2,2,2,2,2,3,3,3,3,3,4,4,4,4,4: a multiple of 500 is still served by
the lower count. -/
theorem calculateDesiredContainers_ramp :
    CONFIG.USERS_PER_CONTAINER = 500 ∧ CONFIG.MIN_CONTAINERS = 1 ∧
      CONFIG.MAX_CONTAINERS = 4 ∧
      rampDemands =
        [0, 100, 200, 300, 400, 500, 600, 700, 800, 900, 1000, 1100, 1200, 1300, 1400,
          1500, 1600, 1700, 1800, 1900, 2000] ∧
      rampDemands.map (calculateDesiredContainers CONFIG) =
        [1, 1, 1, 1, 1, 1, 2, 2, 2, 2, 2, 3, 3, 3, 3, 3, 4, 4, 4, 4, 4] := by
  refine ⟨rfl, rfl, rfl, by decide, by decide⟩


/-! ## Scale-down selection -/

theorem slice_neg_eq_drop {α : Type} (xs : List α) (n : Int) (h0 : 0 < n)
    (h1 : n ≤ xs.length) : slice xs (-n) = xs.drop ((xs.length : Int) - n).toNat := by
  unfold slice
  have hneg : -n < 0 := by omega
  have hmax : max ((xs.length : Int) + -n) 0 = (xs.length : Int) - n := by
    rw [max_eq_left (by omega)]
    omega
  simp only [hneg, if_true, hmax]

theorem scaleDown_eq_drop (containers : List ContainerInfo) (desired : Int)
    (h0 : 0 ≤ desired) (h1 : desired < containers.length) :
    scaleDown containers.length desired containers = containers.drop desired.toNat := by
  unfold scaleDown
  simp only
  rw [slice_neg_eq_drop containers _ (by omega) (by omega)]
  congr 1
  omega

/-- C5 (counterexample): for the listing `[A, B, C, D]` in creation order and
`desired = 1`, the loop of `scaleDown` visits `[B, C, D]`, oldest of the three
first, not `[D, C, B]`. -/
theorem scaleDown_not_most_recent_first :
    scaleDown 4 1 [containerA, containerB, containerC, containerD] =
        [containerB, containerC, containerD] ∧
      scaleDown 4 1 [containerA, containerB, containerC, containerD] ≠
        [containerD, containerC, containerB] := by
  refine ⟨by decide, by decide⟩

/-- C5 (amended): for every listing in creation order (oldest first) with
`len > desired ≥ 0`, `scaleDown` selects exactly the `len - desired` last (most
recently created) entries, visits them in listing order (the reverse of
most-recent-first), and leaves out the `desired` oldest ones. -/
theorem scaleDown_selects_newest (containers : List ContainerInfo) (desired : Int)
    (h0 : 0 ≤ desired) (h1 : desired < containers.length) :
    scaleDown containers.length desired containers = containers.drop desired.toNat ∧
      (scaleDown containers.length desired containers).reverse =
        containers.reverse.take ((containers.length : Int) - desired).toNat ∧
      containers.take desired.toNat ++ scaleDown containers.length desired containers =
        containers ∧
      ((scaleDown containers.length desired containers).length : Int) =
        containers.length - desired := by
  rw [scaleDown_eq_drop containers desired h0 h1]
  have hk : ((containers.length : Int) - desired).toNat = containers.length - desired.toNat := by
    omega
  refine ⟨rfl, ?_, List.take_append_drop _ _, ?_⟩
  · rw [hk, List.reverse_drop]
  · rw [List.length_drop]
    omega

/-- Witness for C5 on the listing `[A, B, C, D]` with `desired = 1`: the
selection is `[B, C, D]` and `A` is kept. -/
theorem scaleDown_selects_newest_witness :
    scaleDown 4 1 [containerA, containerB, containerC, containerD] =
        [containerB, containerC, containerD] ∧
      [containerA] ++ scaleDown 4 1 [containerA, containerB, containerC, containerD] =
        [containerA, containerB, containerC, containerD] :=
  have h := scaleDown_selects_newest [containerA, containerB, containerC, containerD] 1
    (by decide) (by decide)
  ⟨h.1, h.2.2.1⟩


/-! ## The demand update and the reachable states -/

theorem updateUsers_fst (cfg : Config) (s : SimState) :
    (updateUsers cfg s).1 = { s with currentUsers := clampedStep cfg s } := by
  unfold updateUsers clampedStep
  cases hp : s.simulationPaused <;> cases hi : s.isIncreasing <;>
    simp only [Bool.not_false, Bool.not_true, if_true, if_false, Bool.false_eq_true]
  · by_cases h : s.currentUsers - cfg.USERS_INCREMENT ≤ cfg.USERS_MIN
    · simp only [h, if_true, max_eq_right h]
    · simp only [h, if_false, max_eq_left (le_of_lt (not_le.mp h))]
  · by_cases h : s.currentUsers + cfg.USERS_INCREMENT > cfg.USERS_MAX
    · simp only [h, if_true, min_eq_right (le_of_lt h)]
    · simp only [h, if_false, min_eq_left (not_lt.mp h)]
  · cases s
    simp_all
  · cases s
    simp_all

theorem simulationLoop_scaling (cfg : Config) (rt : TickRuntime) (σ : Sys) :
    scalingStep cfg σ.vars.currentUsers rt =
      if (simulationLoop cfg rt σ).aborted then none
      else some (simulationLoop cfg rt σ).scaling := by
  unfold simulationLoop
  cases scalingStep cfg σ.vars.currentUsers rt with
  | none => rfl
  | some sc =>
    simp only
    split <;> rfl

theorem simulationLoop_next (cfg : Config) (rt : TickRuntime) (σ : Sys) :
    (simulationLoop cfg rt σ).next =
      if (simulationLoop cfg rt σ).aborted then σ
      else if alertCondition cfg σ.vars then
        { σ with vars := enterAlert σ.vars
                 alertPc := AlertPc.countdown cfg.ALERT_PAUSE_DURATION }
      else applyUpdate cfg σ := by
  unfold simulationLoop
  cases scalingStep cfg σ.vars.currentUsers rt with
  | none => rfl
  | some sc =>
    simp only
    split <;> simp [*]

theorem scalingStep_isSome (cfg : Config) (users : Int) (rt : TickRuntime)
    (h : rt.relist.isSome = true) : (scalingStep cfg users rt).isSome = true := by
  unfold scalingStep
  simp only
  split
  · rfl
  · split
    · cases hr : rt.relist with
      | none => simp [hr] at h
      | some l => rfl
    · rfl

theorem simulationLoop_not_aborted (cfg : Config) (rt : TickRuntime) (σ : Sys)
    (h : rt.relist.isSome = true) : (simulationLoop cfg rt σ).aborted = false := by
  have hs := scalingStep_isSome cfg σ.vars.currentUsers rt h
  unfold simulationLoop
  cases hc : scalingStep cfg σ.vars.currentUsers rt with
  | none => simp [hc] at hs
  | some sc =>
    simp only
    split <;> rfl

theorem steps_ticks (cfg : Config) (rt : TickRuntime) (n : Nat) (σ : Sys)
    (h : ∀ k, k < n → (ticks cfg rt k σ).phase ≠ ProcessPhase.exited) :
    Steps cfg σ (ticks cfg rt n σ) := by
  induction n generalizing σ with
  | zero => exact Relation.ReflTransGen.refl
  | succ n ih =>
    have h0 : σ.phase ≠ ProcessPhase.exited := h 0 (Nat.succ_pos n)
    refine Relation.ReflTransGen.head (Step.tick σ rt h0) ?_
    exact ih _ (fun k hk => h (k + 1) (Nat.succ_lt_succ hk))

theorem inv_init : Inv initSys := by
  refine ⟨by decide, by decide, ?_, ?_⟩
  · intro h
    exact absurd h (by decide)
  · intro i h
    exact absurd h (by simp [initSys])

theorem clampedStep_bounds (s : SimState) (h0 : 0 ≤ s.currentUsers)
    (h1 : s.currentUsers ≤ CONFIG.USERS_MAX)
    (h2 : s.isIncreasing = false → CONFIG.USERS_MIN ≤ s.currentUsers) :
    0 ≤ clampedStep CONFIG s ∧ clampedStep CONFIG s ≤ CONFIG.USERS_MAX ∧
      (s.isIncreasing = false → CONFIG.USERS_MIN ≤ clampedStep CONFIG s) ∧
      (s.simulationPaused = true → clampedStep CONFIG s = s.currentUsers) := by
  unfold clampedStep
  simp only [CONFIG] at *
  cases hp : s.simulationPaused <;> cases hi : s.isIncreasing
  · have := h2 hi
    simp only [Bool.false_eq_true, if_false]
    refine ⟨by omega, by omega, fun _ => by omega, fun h => absurd h (by decide)⟩
  · simp only [Bool.false_eq_true, if_false, if_true]
    refine ⟨by omega, by omega, fun h => absurd h (by decide), fun h => absurd h (by decide)⟩
  · have := h2 hi
    simp only [if_true]
    exact ⟨h0, h1, fun _ => this, fun _ => trivial⟩
  · simp only [if_true]
    exact ⟨h0, h1, fun h => absurd h (by decide), fun _ => trivial⟩

theorem applyUpdate_vars (cfg : Config) (σ : Sys) :
    (applyUpdate cfg σ).vars = { σ.vars with currentUsers := clampedStep cfg σ.vars } := by
  unfold applyUpdate
  simp only [updateUsers_fst]

theorem inv_applyUpdate (σ : Sys) (h : Inv σ) : Inv (applyUpdate CONFIG σ) := by
  obtain ⟨h0, h1, h2, h3⟩ := h
  obtain ⟨c0, c1, c2, c3⟩ := clampedStep_bounds σ.vars h0 h1 h2
  have hpc : (applyUpdate CONFIG σ).alertPc = σ.alertPc := rfl
  unfold Inv
  rw [applyUpdate_vars, hpc]
  refine ⟨c0, c1, c2, ?_⟩
  intro i hi
  obtain ⟨a1, a2, a3⟩ := h3 i hi
  refine ⟨a1, a2, ?_⟩
  show CONFIG.USERS_MIN ≤ clampedStep CONFIG σ.vars
  rw [c3 a2]
  exact a3

theorem inv_simulationLoop (rt : TickRuntime) (σ : Sys) (h : Inv σ) :
    Inv (simulationLoop CONFIG rt σ).next := by
  rw [simulationLoop_next]
  by_cases hab : (simulationLoop CONFIG rt σ).aborted = true
  · simp only [hab, if_true]
    exact h
  simp only [hab, Bool.false_eq_true, if_false]
  by_cases hc : alertCondition CONFIG σ.vars = true
  · simp only [hc, if_true]
    obtain ⟨h0, h1, h2, _⟩ := h
    have hu : CONFIG.USERS_MAX ≤ σ.vars.currentUsers := by
      unfold alertCondition at hc
      simp only [Bool.and_eq_true, decide_eq_true_eq] at hc
      exact hc.1.1
    refine ⟨h0, h1, h2, ?_⟩
    intro i _
    refine ⟨rfl, rfl, ?_⟩
    show CONFIG.USERS_MIN ≤ σ.vars.currentUsers
    simp only [CONFIG] at *
    omega
  · simp only [hc, if_false, Bool.false_eq_true]
    exact inv_applyUpdate σ h

theorem inv_alertContinue (σ σ' : Sys) (h : Inv σ) (hc : alertContinue CONFIG σ = some σ') :
    Inv σ' := by
  unfold alertContinue at hc
  obtain ⟨h0, h1, h2, h3⟩ := h
  cases hpc : σ.alertPc with
  | idle => simp [hpc] at hc
  | returned => simp [hpc] at hc
  | countdown i =>
    obtain ⟨a1, a2, a3⟩ := h3 i hpc
    simp only [hpc] at hc
    by_cases hi : i > 0
    · simp only [hi, if_true, Option.some.injEq] at hc
      subst hc
      refine ⟨h0, h1, h2, ?_⟩
      intro j _
      exact ⟨a1, a2, a3⟩
    · simp only [hi, if_false, Option.some.injEq] at hc
      subst hc
      refine ⟨h0, h1, fun _ => a3, ?_⟩
      intro j hj
      exact absurd hj (by simp)
  | resumeDelay =>
    simp only [hpc, Option.some.injEq] at hc
    subst hc
    obtain ⟨b0, b1, b2, _⟩ := inv_applyUpdate σ ⟨h0, h1, h2, h3⟩
    refine ⟨b0, b1, b2, ?_⟩
    intro j hj
    exact absurd hj (by simp)

theorem inv_step (σ σ' : Sys) (h : Inv σ) (hs : Step CONFIG σ σ') : Inv σ' := by
  cases hs with
  | tick rt _ => exact inv_simulationLoop rt σ h
  | alert _ _ hc => exact inv_alertContinue σ σ' h hc
  | exit _ => exact h

theorem inv_reachable (σ : Sys) (h : Reachable CONFIG σ) : Inv σ := by
  unfold Reachable Steps at h
  induction h with
  | refl => exact inv_init
  | tail _ hs ih => exact inv_step _ _ ih hs

theorem step_of_fire (cfg : Config) (e : Event) (σ σ' : Sys)
    (h : fire cfg e σ = some σ') : Step cfg σ σ' := by
  cases e with
  | tick rt =>
    unfold fire at h
    by_cases hp : σ.phase = ProcessPhase.exited
    · simp [hp] at h
    · simp only [hp, if_false, Option.some.injEq] at h
      subst h
      exact Step.tick σ rt hp
  | alert =>
    unfold fire at h
    by_cases hp : σ.phase = ProcessPhase.exited
    · simp [hp] at h
    · simp only [hp, if_false] at h
      exact Step.alert σ σ' hp h
  | exit failing group =>
    unfold fire at h
    by_cases hp : σ.phase = ProcessPhase.stopping
    · simp only [hp, if_true, Option.some.injEq] at h
      subst h
      exact Step.exit σ _ group hp
    · simp [hp] at h

theorem steps_runEvents (cfg : Config) (es : List Event) (σ σ' : Sys)
    (h : runEvents cfg es σ = some σ') : Steps cfg σ σ' := by
  induction es generalizing σ with
  | nil =>
    simp only [runEvents, Option.some.injEq] at h
    subst h
    exact Relation.ReflTransGen.refl
  | cons e es ih =>
    unfold runEvents at h
    cases hf : fire cfg e σ with
    | none => simp [hf] at h
    | some σ1 =>
      simp only [hf] at h
      exact Relation.ReflTransGen.head (step_of_fire cfg e σ σ1 hf) (ih σ1 h)

theorem trace_head (cfg : Config) (es : List Event) (σ : Sys) :
    (trace cfg es σ).head? = some σ := by
  cases es with
  | nil => rfl
  | cons e es =>
    unfold trace
    cases fire cfg e σ <;> rfl

theorem chain_trace (cfg : Config) (es : List Event) (σ : Sys) :
    List.Chain' (Step cfg) (trace cfg es σ) := by
  induction es generalizing σ with
  | nil => exact List.chain'_singleton σ
  | cons e es ih =>
    unfold trace
    cases hf : fire cfg e σ with
    | none => exact List.chain'_singleton σ
    | some σ1 =>
      simp only
      refine List.Chain'.cons' (ih σ1) ?_
      intro y hy
      rw [trace_head] at hy
      cases hy
      exact step_of_fire cfg e σ σ1 hf

theorem isRun_trace (cfg : Config) (es : List Event) :
    IsRun cfg (trace cfg es initSys) :=
  ⟨trace_head cfg es initSys, chain_trace cfg es initSys⟩

theorem simulationLoop_scaling_of_some (cfg : Config) (rt : TickRuntime) (σ : Sys)
    (sc : Reconciliation) (h : scalingStep cfg σ.vars.currentUsers rt = some sc) :
    (simulationLoop cfg rt σ).scaling = sc := by
  unfold simulationLoop
  simp only [h]
  split <;> rfl

theorem simulationLoop_scaling_of_none (cfg : Config) (rt : TickRuntime) (σ : Sys)
    (h : scalingStep cfg σ.vars.currentUsers rt = none) :
    (simulationLoop cfg rt σ).scaling = { created := [], deleted := [] } := by
  unfold simulationLoop
  simp only [h]

theorem scalingStep_exclusive (cfg : Config) (users : Int) (rt : TickRuntime)
    (sc : Reconciliation) (h : scalingStep cfg users rt = some sc) :
    sc.created = [] ∨ sc.deleted = [] := by
  unfold scalingStep at h
  simp only at h
  split at h
  · simp only [Option.some.injEq] at h
    subst h
    exact Or.inr rfl
  · split at h
    · cases hr : rt.relist with
      | none => simp [hr] at h
      | some l =>
        simp only [hr, Option.some.injEq] at h
        subst h
        exact Or.inl rfl
    · simp only [Option.some.injEq] at h
      subst h
      exact Or.inl rfl

/-! ## Reconciliation and demand: claims -/

/-- C6: in every tick from a reachable state (shipped `CONFIG`), when the
observed count `n` is below the desired count the scaling step issues exactly
`desired - n` creation attempts and no termination; no tick issues both
creations and terminations; and when `n = desired` it issues neither. -/
theorem scaling_creates_missing (σ : Sys) (rt : TickRuntime)
    (hr : Reachable CONFIG σ) :
    ((rt.containers.length : Int) < calculateDesiredContainers CONFIG σ.vars.currentUsers →
        (((simulationLoop CONFIG rt σ).scaling.created.length : Nat) : Int) =
            calculateDesiredContainers CONFIG σ.vars.currentUsers - rt.containers.length ∧
          (simulationLoop CONFIG rt σ).scaling.deleted = []) ∧
      ((simulationLoop CONFIG rt σ).scaling.created = [] ∨
        (simulationLoop CONFIG rt σ).scaling.deleted = []) ∧
      ((rt.containers.length : Int) = calculateDesiredContainers CONFIG σ.vars.currentUsers →
        (simulationLoop CONFIG rt σ).scaling.created = [] ∧
          (simulationLoop CONFIG rt σ).scaling.deleted = []) := by
  obtain ⟨_, h1, _, _⟩ := inv_reachable σ hr
  have hcap : σ.vars.currentUsers ≤ CONFIG.MAX_USERS_CAPACITY := h1
  refine ⟨?_, ?_, ?_⟩
  · intro hlt
    have hs : scalingStep CONFIG σ.vars.currentUsers rt =
        some { created := scaleUp rt.containers.length
                 (calculateDesiredContainers CONFIG σ.vars.currentUsers), deleted := [] } := by
      unfold scalingStep
      simp only [hlt, hcap, and_self, if_true]
    rw [simulationLoop_scaling_of_some CONFIG rt σ _ hs]
    simp only [scaleUp, List.length_map, List.length_range, and_true]
    omega
  · cases hs : scalingStep CONFIG σ.vars.currentUsers rt with
    | none =>
      rw [simulationLoop_scaling_of_none CONFIG rt σ hs]
      exact Or.inl rfl
    | some sc =>
      rw [simulationLoop_scaling_of_some CONFIG rt σ sc hs]
      exact scalingStep_exclusive CONFIG _ rt sc hs
  · intro heq
    have hn : ¬ ((rt.containers.length : Int) <
        calculateDesiredContainers CONFIG σ.vars.currentUsers) := by omega
    have hg : ¬ ((rt.containers.length : Int) >
        calculateDesiredContainers CONFIG σ.vars.currentUsers) := by omega
    have hs : scalingStep CONFIG σ.vars.currentUsers rt =
        some { created := [], deleted := [] } := by
      unfold scalingStep
      simp only [hn, hg, false_and, if_false]
    rw [simulationLoop_scaling_of_some CONFIG rt σ _ hs]
    exact ⟨rfl, rfl⟩

set_option maxRecDepth 4000 in
/-- Witness for C6: after sixteen ticks demand is 1600 and four containers are
desired; with two containers listed the tick issues two creation attempts
(labelled 3 and 4) and no termination. -/
theorem scaling_creates_missing_witness :
    (ticks CONFIG (okRuntime []) 16 initSys).vars.currentUsers = 1600 ∧
      (simulationLoop CONFIG (okRuntime [containerA, containerB])
        (ticks CONFIG (okRuntime []) 16 initSys)).scaling = { created := [3, 4], deleted := [] } ∧
      (((simulationLoop CONFIG (okRuntime [containerA, containerB])
        (ticks CONFIG (okRuntime []) 16 initSys)).scaling.created.length : Nat) : Int) =
          calculateDesiredContainers CONFIG (ticks CONFIG (okRuntime []) 16 initSys).vars.currentUsers -
            ([containerA, containerB].length : Nat) :=
  ⟨by decide, by decide,
    ((scaling_creates_missing (ticks CONFIG (okRuntime []) 16 initSys)
      (okRuntime [containerA, containerB])
      (steps_ticks CONFIG (okRuntime []) 16 initSys (by decide))).1 (by decide)).1⟩

/-- C7: the demand update of `simulationLoop` is a clamped step applied once: it
changes only `currentUsers`, leaving it unchanged when paused, setting it to
`min (demand + USERS_INCREMENT) USERS_MAX` when increasing and to
`max (demand - USERS_INCREMENT) USERS_MIN` when decreasing, for every
configuration (every increment, divisor of the range or not); and an invocation
that does not take the alert branch applies this update exactly once, while one
that takes it, or one that ends in the `catch` of the function, leaves demand as
it is. -/
theorem updateUsers_clamped_step (cfg : Config) (s : SimState) (σ : Sys)
    (rt : TickRuntime) :
    (updateUsers cfg s).1 =
        { s with currentUsers :=
            if s.simulationPaused then s.currentUsers
            else if s.isIncreasing then min (s.currentUsers + cfg.USERS_INCREMENT) cfg.USERS_MAX
            else max (s.currentUsers - cfg.USERS_INCREMENT) cfg.USERS_MIN } ∧
      (simulationLoop cfg rt σ).next.vars =
        (if (simulationLoop cfg rt σ).aborted then σ.vars
         else if alertCondition cfg σ.vars then enterAlert σ.vars
         else (updateUsers cfg σ.vars).1) ∧
      (enterAlert σ.vars).currentUsers = σ.vars.currentUsers := by
  refine ⟨?_, ?_, rfl⟩
  · rw [updateUsers_fst]
    rfl
  · rw [simulationLoop_next]
    split
    · rfl
    · split <;> rfl

/-- C8 (counterexample): the initial state is reachable and its demand `0` lies
below the floor `USERS_MIN = 400`; so does the demand `300` seen by the fourth
tick. -/
theorem initial_demand_below_floor :
    Reachable CONFIG initSys ∧ Reachable CONFIG (ticks CONFIG (okRuntime []) 3 initSys) ∧
      ¬ (CONFIG.USERS_MIN ≤ initSys.vars.currentUsers ∧
          initSys.vars.currentUsers ≤ CONFIG.USERS_MAX) ∧
      ¬ (CONFIG.USERS_MIN ≤ (ticks CONFIG (okRuntime []) 3 initSys).vars.currentUsers ∧
          (ticks CONFIG (okRuntime []) 3 initSys).vars.currentUsers ≤ CONFIG.USERS_MAX) :=
  ⟨Relation.ReflTransGen.refl, steps_ticks CONFIG (okRuntime []) 3 initSys (by decide), by decide, by decide⟩

/-- C8 (amended): in every state reachable from the initial state (shipped
`CONFIG`), the demand seen by the planner and the scaling step lies in
`[0, USERS_MAX]`, and in `[USERS_MIN, USERS_MAX]` once the direction is
decreasing. -/
theorem reachable_demand_range (σ : Sys) (hr : Reachable CONFIG σ) :
    0 ≤ σ.vars.currentUsers ∧ σ.vars.currentUsers ≤ CONFIG.USERS_MAX ∧
      (σ.vars.isIncreasing = false → CONFIG.USERS_MIN ≤ σ.vars.currentUsers) := by
  obtain ⟨h0, h1, h2, _⟩ := inv_reachable σ hr
  exact ⟨h0, h1, h2⟩

set_option maxRecDepth 8000 in
/-- Witness for C8: after the scenario up to the resumption the demand is 1900,
decreasing, inside `[USERS_MIN, USERS_MAX]`. -/
theorem reachable_demand_range_witness :
    runEvents CONFIG scenarioEvents initSys =
        some { vars := { currentUsers := 1900, isIncreasing := false,
                         simulationPaused := false, alertShown := true }
               alertPc := AlertPc.returned, phase := ProcessPhase.running } ∧
      CONFIG.USERS_MIN ≤ (1900 : Int) ∧ (1900 : Int) ≤ CONFIG.USERS_MAX :=
  have h : runEvents CONFIG scenarioEvents initSys =
        some { vars := { currentUsers := 1900, isIncreasing := false,
                         simulationPaused := false, alertShown := true }
               alertPc := AlertPc.returned, phase := ProcessPhase.running } := by decide
  have r := reachable_demand_range _ (steps_runEvents CONFIG scenarioEvents initSys _ h)
  ⟨h, r.2.2 rfl, r.2.1⟩

/-! ## The alert -/

theorem simulationLoop_next_of_alertShown (cfg : Config) (rt : TickRuntime)
    (σ : Sys) (h : σ.vars.alertShown = true) :
    (simulationLoop cfg rt σ).next =
      if (simulationLoop cfg rt σ).aborted then σ else applyUpdate cfg σ := by
  have hc : alertCondition cfg σ.vars = false := by
    unfold alertCondition
    simp [h]
  rw [simulationLoop_next]
  simp only [hc, Bool.false_eq_true, if_false]

theorem step_alertShown (cfg : Config) (σ σ' : Sys) (hs : Step cfg σ σ')
    (h : σ.vars.alertShown = true) : σ'.vars.alertShown = true := by
  cases hs with
  | tick rt _ =>
    rw [simulationLoop_next_of_alertShown cfg rt σ h]
    split
    · exact h
    · rw [applyUpdate_vars]
      exact h
  | alert _ _ hc =>
    unfold alertContinue at hc
    cases hpc : σ.alertPc with
    | idle => simp [hpc] at hc
    | returned => simp [hpc] at hc
    | countdown i =>
      simp only [hpc] at hc
      by_cases hi : i > 0
      · simp only [hi, if_true, Option.some.injEq] at hc
        subst hc
        exact h
      · simp only [hi, if_false, Option.some.injEq] at hc
        subst hc
        exact h
    | resumeDelay =>
      simp only [hpc, Option.some.injEq] at hc
      subst hc
      show (applyUpdate cfg σ).vars.alertShown = true
      rw [applyUpdate_vars]
      exact h
  | exit _ => exact h

theorem chain_alertShown (cfg : Config) (l : List Sys) (a : Sys)
    (hc : List.Chain' (Step cfg) (a :: l)) (h : a.vars.alertShown = true) :
    ∀ b ∈ l, b.vars.alertShown = true := by
  induction l generalizing a with
  | nil => intro b hb; cases hb
  | cons c l ih =>
    rw [List.chain'_cons] at hc
    have hcs : c.vars.alertShown = true := step_alertShown cfg a c hc.1 h
    intro b hb
    rcases List.mem_cons.mp hb with hbc | hbl
    · rw [hbc]; exact hcs
    · exact ih c hc.2 hcs b hbl

theorem alertFirings_eq_zero (cfg : Config) (l : List Sys) (a : Sys)
    (hc : List.Chain' (Step cfg) (a :: l)) (h : a.vars.alertShown = true) :
    alertFirings (a :: l) = 0 := by
  induction l generalizing a with
  | nil => rfl
  | cons c l ih =>
    rw [List.chain'_cons] at hc
    have hcs : c.vars.alertShown = true := step_alertShown cfg a c hc.1 h
    unfold alertFirings
    rw [ih c hc.2 hcs]
    simp [h]

theorem alertFirings_le_one (cfg : Config) (l : List Sys)
    (hc : List.Chain' (Step cfg) l) : alertFirings l ≤ 1 := by
  induction l with
  | nil => exact Nat.zero_le 1
  | cons a l ih =>
    cases l with
    | nil => exact Nat.zero_le 1
    | cons c l =>
      rw [List.chain'_cons] at hc
      unfold alertFirings
      by_cases hf : (!a.vars.alertShown && c.vars.alertShown) = true
      · have hcs : c.vars.alertShown = true := by
          simp only [Bool.and_eq_true] at hf
          exact hf.2
        rw [alertFirings_eq_zero cfg l c hc.2 hcs]
        simp [hf]
      · have := ih hc.2
        simp only [hf, Bool.false_eq_true, if_false, Nat.zero_add]
        exact this

theorem pairwise_alertShown (cfg : Config) (l : List Sys)
    (hc : List.Chain' (Step cfg) l) :
    List.Pairwise (fun a b => a.vars.alertShown = true → b.vars.alertShown = true) l := by
  induction l with
  | nil => exact List.Pairwise.nil
  | cons a l ih =>
    refine List.Pairwise.cons ?_ (ih (List.Chain'.tail hc))
    intro b hb h
    exact chain_alertShown cfg l a hc h b hb

/-- C9: along every run from the initial state, `alertShown` changes from false
to true at most once and is never reset (once true in a state of the run, it is
true in every later one), and an invocation of `simulationLoop` that starts with
`alertShown = true` does not take the alert branch, whatever the demand: it
leaves by the demand update (or by the `catch` of the function, with the state
as it was), with the pause flag and the alert invocation untouched. -/
theorem alert_fires_at_most_once (cfg : Config) (run : List Sys) (h : IsRun cfg run) :
    alertFirings run ≤ 1 ∧
      List.Pairwise (fun a b => a.vars.alertShown = true → b.vars.alertShown = true) run ∧
      ∀ σ ∈ run, σ.vars.alertShown = true → ∀ rt : TickRuntime,
        (simulationLoop cfg rt σ).next =
            (if (simulationLoop cfg rt σ).aborted then σ else applyUpdate cfg σ) ∧
          (simulationLoop cfg rt σ).next.vars.simulationPaused =
            σ.vars.simulationPaused ∧
          (simulationLoop cfg rt σ).next.vars.alertShown = true ∧
          (simulationLoop cfg rt σ).next.alertPc = σ.alertPc := by
  refine ⟨alertFirings_le_one cfg run h.2, pairwise_alertShown cfg run h.2, ?_⟩
  intro σ _ ha rt
  rw [simulationLoop_next_of_alertShown cfg rt σ ha]
  refine ⟨rfl, ?_, ?_, ?_⟩
  · split
    · rfl
    · rw [applyUpdate_vars]
  · split
    · exact ha
    · rw [applyUpdate_vars]
      exact ha
  · split <;> rfl

set_option maxRecDepth 20000 in
/-- Witness for C9: the scenario up to the resumption is a run, the alert fires
exactly once in it, and the count is within the bound. -/
theorem alert_fires_at_most_once_witness :
    IsRun CONFIG (trace CONFIG scenarioEvents initSys) ∧
      alertFirings (trace CONFIG scenarioEvents initSys) = 1 ∧
      alertFirings (trace CONFIG scenarioEvents initSys) ≤ 1 :=
  ⟨isRun_trace CONFIG scenarioEvents, by decide,
    (alert_fires_at_most_once CONFIG (trace CONFIG scenarioEvents initSys)
      (isRun_trace CONFIG scenarioEvents)).1⟩

theorem afterAlert_applyUpdate (cfg : Config) (σ : Sys) (h : AfterAlert σ) :
    AfterAlert (applyUpdate cfg σ) := by
  unfold AfterAlert at *
  have hpc : (applyUpdate cfg σ).alertPc = σ.alertPc := rfl
  rw [hpc, applyUpdate_vars]
  exact h

theorem afterAlert_step (cfg : Config) (σ σ' : Sys) (hs : Step cfg σ σ')
    (h : AfterAlert σ) : AfterAlert σ' := by
  cases hs with
  | tick rt _ =>
    rw [simulationLoop_next_of_alertShown cfg rt σ h.1]
    split
    · exact h
    · exact afterAlert_applyUpdate cfg σ h
  | alert _ _ hc =>
    unfold alertContinue at hc
    cases hpc : σ.alertPc with
    | idle => simp [hpc] at hc
    | returned => simp [hpc] at hc
    | countdown i =>
      simp only [hpc] at hc
      obtain ⟨h1, h2⟩ := h
      rw [hpc] at h2
      by_cases hi : i > 0
      · simp only [hi, if_true, Option.some.injEq] at hc
        subst hc
        exact ⟨h1, h2⟩
      · simp only [hi, if_false, Option.some.injEq] at hc
        subst hc
        exact ⟨h1, rfl, rfl⟩
    | resumeDelay =>
      simp only [hpc, Option.some.injEq] at hc
      subst hc
      obtain ⟨h1, h2⟩ := afterAlert_applyUpdate cfg σ h
      have hpc' : (applyUpdate cfg σ).alertPc = AlertPc.resumeDelay := hpc
      rw [hpc'] at h2
      exact ⟨h1, h2⟩
  | exit _ => exact h

theorem afterAlert_steps (cfg : Config) (σ σ' : Sys) (hs : Steps cfg σ σ')
    (h : AfterAlert σ) : AfterAlert σ' := by
  unfold Steps at hs
  induction hs with
  | refl => exact h
  | tail _ hs ih => exact afterAlert_step cfg _ _ hs ih

theorem countdown_finishes (cfg : Config) (n : Nat) (σ : Sys) (i : Int)
    (hpc : σ.alertPc = AlertPc.countdown i) (hn : i.toNat = n)
    (hp : σ.phase ≠ ProcessPhase.exited) :
    Steps cfg σ { σ with vars := resumeDecreasing σ.vars, alertPc := AlertPc.resumeDelay } := by
  induction n generalizing σ i with
  | zero =>
    have hi : ¬ i > 0 := by omega
    refine Relation.ReflTransGen.single (Step.alert σ _ hp ?_)
    unfold alertContinue
    simp only [hpc, hi, if_false]
  | succ n ih =>
    have hi : i > 0 := by omega
    have h1 : alertContinue cfg σ = some { σ with alertPc := AlertPc.countdown (i - 1) } := by
      unfold alertContinue
      simp only [hpc, hi, if_true]
    refine Relation.ReflTransGen.head (Step.alert σ _ hp h1) ?_
    exact ih { σ with alertPc := AlertPc.countdown (i - 1) } (i - 1) rfl (by omega) hp

set_option maxRecDepth 8000 in
/-- C10 (counterexample): after twenty ticks the demand is at the ceiling 2000,
increasing, with no alert yet; a tick that lists five containers calls
`scaleDown`, and when the listing of `scaleDown` rejects the tick ends in the
`catch` of `simulationLoop`: the alert is not raised and nothing is paused. -/
theorem aborted_tick_skips_alert :
    (ticks CONFIG (okRuntime []) 20 initSys).vars.currentUsers = CONFIG.USERS_MAX ∧
      (ticks CONFIG (okRuntime []) 20 initSys).vars.isIncreasing = true ∧
      (ticks CONFIG (okRuntime []) 20 initSys).vars.alertShown = false ∧
      (ticks CONFIG (okRuntime []) 20 initSys).phase = ProcessPhase.running ∧
      (simulationLoop CONFIG failedRelist
        (ticks CONFIG (okRuntime []) 20 initSys)).aborted = true ∧
      (simulationLoop CONFIG failedRelist
        (ticks CONFIG (okRuntime []) 20 initSys)).next.vars.alertShown = false ∧
      (simulationLoop CONFIG failedRelist
        (ticks CONFIG (okRuntime []) 20 initSys)).next.vars.simulationPaused = false := by
  refine ⟨by decide, by decide, by decide, by decide, by decide, by decide, by decide⟩

/-- C10 (amended): from every state of a running process with demand at the
ceiling `USERS_MAX`, direction increasing and the alert not yet fired, the next
invocation of `simulationLoop` that does not end in the `catch` of the function
enters the alert pause (`alertShown` and `simulationPaused` become true, the
countdown starts at `ALERT_PAUSE_DURATION`); the countdown does run to its end,
and then the direction is decreasing, the simulation is not paused and
`alertShown` is still true; in every later state `alertShown` is true, the
simulation is paused as long as the countdown runs, and after it the direction
stays decreasing and the simulation unpaused. -/
theorem alert_pause_then_decreasing (cfg : Config) (rt : TickRuntime)
    (σ : Sys) (hu : σ.vars.currentUsers = cfg.USERS_MAX)
    (hi : σ.vars.isIncreasing = true) (ha : σ.vars.alertShown = false)
    (hp : σ.phase ≠ ProcessPhase.exited)
    (hab : (simulationLoop cfg rt σ).aborted = false) :
    ((simulationLoop cfg rt σ).next.vars.alertShown = true ∧
        (simulationLoop cfg rt σ).next.vars.simulationPaused = true ∧
        (simulationLoop cfg rt σ).next.vars.isIncreasing = true ∧
        (simulationLoop cfg rt σ).next.vars.currentUsers = cfg.USERS_MAX ∧
        (simulationLoop cfg rt σ).next.alertPc =
          AlertPc.countdown cfg.ALERT_PAUSE_DURATION) ∧
      (∃ σ2, Steps cfg (simulationLoop cfg rt σ).next σ2 ∧
        σ2.alertPc = AlertPc.resumeDelay ∧ σ2.vars.isIncreasing = false ∧
        σ2.vars.simulationPaused = false ∧ σ2.vars.alertShown = true ∧
        σ2.vars.currentUsers = cfg.USERS_MAX) ∧
      (∀ σ', Steps cfg (simulationLoop cfg rt σ).next σ' →
        σ'.vars.alertShown = true ∧
          (∀ i, σ'.alertPc = AlertPc.countdown i → σ'.vars.simulationPaused = true) ∧
          (σ'.alertPc = AlertPc.resumeDelay ∨ σ'.alertPc = AlertPc.returned →
            σ'.vars.isIncreasing = false ∧ σ'.vars.simulationPaused = false)) := by
  have hc : alertCondition cfg σ.vars = true := by
    unfold alertCondition
    simp [hu, hi, ha]
  have hnext : (simulationLoop cfg rt σ).next =
      { σ with vars := enterAlert σ.vars
               alertPc := AlertPc.countdown cfg.ALERT_PAUSE_DURATION } := by
    rw [simulationLoop_next]
    simp only [hab, hc, Bool.false_eq_true, if_false, if_true]
  rw [hnext]
  refine ⟨⟨rfl, rfl, hi, hu, rfl⟩, ?_, ?_⟩
  · refine ⟨_, countdown_finishes cfg _ _ cfg.ALERT_PAUSE_DURATION rfl rfl hp,
      rfl, rfl, rfl, rfl, hu⟩
  · intro σ' hs
    have hA : AfterAlert { σ with vars := enterAlert σ.vars
                                  alertPc := AlertPc.countdown cfg.ALERT_PAUSE_DURATION } :=
      ⟨rfl, rfl⟩
    obtain ⟨h1, h2⟩ := afterAlert_steps cfg _ σ' hs hA
    refine ⟨h1, ?_, ?_⟩
    · intro i hpc
      rw [hpc] at h2
      exact h2
    · intro hpc
      rcases hpc with hpc | hpc
      · rw [hpc] at h2
        exact h2
      · rw [hpc] at h2
        exact h2

set_option maxRecDepth 8000 in
/-- Witness for C10: after twenty ticks the demand is 2000, increasing, with no
alert yet; the next invocation enters the alert pause with the countdown at 30. -/
theorem alert_pause_then_decreasing_witness :
    (ticks CONFIG (okRuntime []) 20 initSys).vars.currentUsers = CONFIG.USERS_MAX ∧
      (ticks CONFIG (okRuntime []) 20 initSys).vars.isIncreasing = true ∧
      (ticks CONFIG (okRuntime []) 20 initSys).vars.alertShown = false ∧
      (simulationLoop CONFIG (okRuntime []) (ticks CONFIG (okRuntime []) 20 initSys)).next.vars.alertShown = true ∧
      (simulationLoop CONFIG (okRuntime []) (ticks CONFIG (okRuntime []) 20 initSys)).next.vars.simulationPaused = true ∧
      (simulationLoop CONFIG (okRuntime []) (ticks CONFIG (okRuntime []) 20 initSys)).next.alertPc =
        AlertPc.countdown 30 :=
  have h := (alert_pause_then_decreasing CONFIG (okRuntime [])
    (ticks CONFIG (okRuntime []) 20 initSys)
    (by decide) (by decide) (by decide) (by decide) (by decide)).1
  ⟨by decide, by decide, by decide, h.1, h.2.1, h.2.2.2.2⟩

/-! ## The descent and the drain -/

theorem simulationLoop_next_decreasing (cfg : Config) (rt : TickRuntime)
    (σ : Sys) (hi : σ.vars.isIncreasing = false) (hp : σ.vars.simulationPaused = false)
    (hr : rt.relist.isSome = true) :
    (simulationLoop cfg rt σ).next =
      { vars := { σ.vars with
                  currentUsers := max (σ.vars.currentUsers - cfg.USERS_INCREMENT) cfg.USERS_MIN }
        alertPc := σ.alertPc
        phase := if σ.vars.currentUsers - cfg.USERS_INCREMENT ≤ cfg.USERS_MIN
                 then ProcessPhase.stopping else σ.phase } := by
  have hc : alertCondition cfg σ.vars = false := by
    unfold alertCondition
    simp [hi]
  rw [simulationLoop_next, simulationLoop_not_aborted cfg rt σ hr]
  simp only [hc, Bool.false_eq_true, if_false]
  unfold applyUpdate updateUsers
  by_cases h : σ.vars.currentUsers - cfg.USERS_INCREMENT ≤ cfg.USERS_MIN
  · simp only [hi, hp, h, Bool.not_false, if_true, Bool.false_eq_true, if_false,
      max_eq_right h]
  · simp only [hi, hp, h, Bool.not_false, if_true, Bool.false_eq_true, if_false,
      max_eq_left (le_of_lt (not_le.mp h))]

theorem ticks_succ (cfg : Config) (rt : TickRuntime) (n : Nat) (σ : Sys) :
    ticks cfg rt (n + 1) σ =
      (simulationLoop cfg rt (ticks cfg rt n σ)).next := by
  induction n generalizing σ with
  | zero => rfl
  | succ n ih =>
    show ticks cfg rt (n + 1) (simulationLoop cfg rt σ).next = _
    rw [ih]
    rfl

theorem ticks_decreasing (rt : TickRuntime) (σ : Sys)
    (hi : σ.vars.isIncreasing = false) (hp : σ.vars.simulationPaused = false)
    (hu : CONFIG.USERS_MIN ≤ σ.vars.currentUsers) (hr : rt.relist.isSome = true) (n : Nat) :
    ticks CONFIG rt n σ =
      { vars := { σ.vars with currentUsers := max (σ.vars.currentUsers - 100 * (n : Int)) 400 }
        alertPc := σ.alertPc
        phase := if 1 ≤ n ∧ σ.vars.currentUsers - 100 * (n : Int) ≤ 400
                 then ProcessPhase.stopping else σ.phase } := by
  have hu' : (400 : Int) ≤ σ.vars.currentUsers := hu
  induction n with
  | zero =>
    have h0 : max (σ.vars.currentUsers - 100 * ((0 : Nat) : Int)) 400 = σ.vars.currentUsers := by
      rw [max_eq_left (by omega)]
      omega
    show σ = _
    rw [h0]
    simp
  | succ n ih =>
    have key := simulationLoop_next_decreasing CONFIG rt (ticks CONFIG rt n σ)
      (by rw [ih]; exact hi) (by rw [ih]; exact hp) hr
    rw [ticks_succ, key, ih]
    have e1 : max (max (σ.vars.currentUsers - 100 * (n : Int)) 400 - CONFIG.USERS_INCREMENT)
        CONFIG.USERS_MIN = max (σ.vars.currentUsers - 100 * ((n + 1 : Nat) : Int)) 400 := by
      simp only [CONFIG]
      push_cast
      omega
    simp only [e1]
    congr 1
    simp only [CONFIG]
    push_cast
    by_cases h : σ.vars.currentUsers - 100 * ((n : Int) + 1) ≤ 400
    · have h1 : max (σ.vars.currentUsers - 100 * (n : Int)) 400 - 100 ≤ 400 := by omega
      simp [h, h1]
    · have h1 : ¬ max (σ.vars.currentUsers - 100 * (n : Int)) 400 - 100 ≤ 400 := by omega
      have h2 : ¬ σ.vars.currentUsers - 100 * (n : Int) ≤ 400 := by omega
      simp [h, h1, h2]

theorem cleanupLoop_noFailure (group : List ContainerInfo) :
    (cleanupLoop noFailure group).remaining = [] := by
  induction group with
  | nil => rfl
  | cons c rest ih =>
    unfold cleanupLoop
    by_cases h : c.State = "running"
    · simp only [h, if_true, noFailure, Bool.false_eq_true, if_false]
      exact ih
    · simp only [h, if_false, noFailure, Bool.false_eq_true]
      exact ih

theorem cleanup_nil (fails : RuntimeOp → Bool) :
    cleanup fails [] = { attempted := [], remaining := [] } := by
  unfold cleanup
  split <;> rfl

theorem cleanup_after_success (fails : RuntimeOp → Bool) (group : List ContainerInfo) :
    (cleanup noFailure group).remaining = [] ∧
      cleanup fails (cleanup noFailure group).remaining =
        { attempted := [], remaining := [] } := by
  have h : (cleanup noFailure group).remaining = [] := by
    unfold cleanup
    simp only [noFailure, Bool.false_eq_true, if_false]
    exact cleanupLoop_noFailure group
  rw [h]
  exact ⟨rfl, cleanup_nil fails⟩

theorem cleanupLoop_noFailure_attempted (group : List ContainerInfo) :
    ∀ c ∈ group, RuntimeOp.remove c.Id ∈ (cleanupLoop noFailure group).attempted := by
  induction group with
  | nil => intro c hc; cases hc
  | cons d rest ih =>
    intro c hc
    unfold cleanupLoop
    by_cases h : d.State = "running"
    · simp only [h, if_true, noFailure, Bool.false_eq_true, if_false]
      rcases List.mem_cons.mp hc with hcd | hcr
      · rw [hcd]
        exact List.mem_cons_of_mem _ (List.mem_cons_self _ _)
      · exact List.mem_cons_of_mem _ (List.mem_cons_of_mem _ (ih c hcr))
    · simp only [h, if_false, noFailure, Bool.false_eq_true]
      rcases List.mem_cons.mp hc with hcd | hcr
      · rw [hcd]
        exact List.mem_cons_self _ _
      · exact List.mem_cons_of_mem _ (ih c hcr)

set_option maxRecDepth 20000 in
/-- C11 (counterexample): from the state at the end of the countdown (demand
2000, decreasing), the fifteenth tick leaves demand 500 with the process
running, and the sixteenth both brings the demand to 400 and takes the final
branch: the terminal state is entered by the tick that reaches the floor, not by
an evaluation after it. In that state the timer still fires: a tick that lists
no container issues a creation, so the group need not be empty when the process
exits. -/
theorem floor_tick_is_terminal :
    (ticks CONFIG (okRuntime []) 15 decreasingStart).vars.currentUsers = 500 ∧
      (ticks CONFIG (okRuntime []) 15 decreasingStart).phase = ProcessPhase.running ∧
      (ticks CONFIG (okRuntime []) 16 decreasingStart).vars.currentUsers = 400 ∧
      (ticks CONFIG (okRuntime []) 16 decreasingStart).phase = ProcessPhase.stopping ∧
      (simulationLoop CONFIG (okRuntime [])
        (ticks CONFIG (okRuntime []) 16 decreasingStart)).scaling =
          { created := [1], deleted := [] } := by
  refine ⟨by decide, by decide, by decide, by decide, by decide⟩

/-- C11 (amended): under the shipped `CONFIG` (increment 100, floor 400), from a
state with demand 2000, direction decreasing and not paused, repeated ticks
(none ended by a rejected listing) give the demands 1900, 1800, ..., 500 and
then exactly 400, never a value below 400; the tick that brings the demand to
400 itself takes the final branch, and the demand stays at 400 in every later
tick; the end of that branch can then run, it calls `cleanup()`, and when no
runtime call fails `cleanup()` attempts the removal of every container it lists
and leaves none of them, after which the process has exited. -/
theorem descent_reaches_floor_and_drains (σ : Sys) (rt : TickRuntime)
    (hu : σ.vars.currentUsers = 2000) (hi : σ.vars.isIncreasing = false)
    (hp : σ.vars.simulationPaused = false) (hr : rt.relist.isSome = true) :
    (∀ n : Nat, CONFIG.USERS_MIN ≤ (ticks CONFIG rt n σ).vars.currentUsers) ∧
      (∀ n : Nat, n < 16 →
        (ticks CONFIG rt n σ).vars.currentUsers = 2000 - 100 * (n : Int) ∧
          (ticks CONFIG rt n σ).phase = σ.phase) ∧
      (ticks CONFIG rt 16 σ).vars.currentUsers = CONFIG.USERS_MIN ∧
      (ticks CONFIG rt 16 σ).phase = ProcessPhase.stopping ∧
      (∀ n : Nat, 16 ≤ n →
        (ticks CONFIG rt n σ).vars.currentUsers = CONFIG.USERS_MIN ∧
          (ticks CONFIG rt n σ).phase = ProcessPhase.stopping) ∧
      (∀ group : List ContainerInfo,
        Step CONFIG (ticks CONFIG rt 16 σ)
            (finalBranch noFailure group (ticks CONFIG rt 16 σ)).next ∧
          (finalBranch noFailure group (ticks CONFIG rt 16 σ)).next.phase =
            ProcessPhase.exited ∧
          (finalBranch noFailure group (ticks CONFIG rt 16 σ)).drain.remaining = [] ∧
          ∀ c ∈ group, RuntimeOp.remove c.Id ∈
            (finalBranch noFailure group (ticks CONFIG rt 16 σ)).drain.attempted) := by
  have hmin : CONFIG.USERS_MIN ≤ σ.vars.currentUsers := by
    rw [hu]
    decide
  have key := ticks_decreasing rt σ hi hp hmin hr
  have late : ∀ n : Nat, 16 ≤ n →
      (ticks CONFIG rt n σ).vars.currentUsers = CONFIG.USERS_MIN ∧
        (ticks CONFIG rt n σ).phase = ProcessPhase.stopping := by
    intro n hn
    rw [key n, hu]
    have h1 : (2000 : Int) - 100 * (n : Int) ≤ 400 := by omega
    have h2 : 1 ≤ n := by omega
    refine ⟨?_, ?_⟩
    · show max ((2000 : Int) - 100 * (n : Int)) 400 = CONFIG.USERS_MIN
      rw [max_eq_right h1]
      rfl
    · show (if 1 ≤ n ∧ (2000 : Int) - 100 * (n : Int) ≤ 400 then ProcessPhase.stopping
        else σ.phase) = ProcessPhase.stopping
      simp only [h1, h2, and_self, if_true]
  refine ⟨?_, ?_, (late 16 (le_refl 16)).1, (late 16 (le_refl 16)).2, late, ?_⟩
  · intro n
    rw [key n]
    exact le_max_right _ _
  · intro n hn
    rw [key n, hu]
    have h1 : ¬ ((2000 : Int) - 100 * (n : Int) ≤ 400) := by omega
    refine ⟨?_, ?_⟩
    · show max ((2000 : Int) - 100 * (n : Int)) 400 = 2000 - 100 * (n : Int)
      exact max_eq_left (by omega)
    · show (if 1 ≤ n ∧ (2000 : Int) - 100 * (n : Int) ≤ 400 then ProcessPhase.stopping
        else σ.phase) = σ.phase
      simp only [h1, and_false, if_false]
  · intro group
    have hd : (finalBranch noFailure group (ticks CONFIG rt 16 σ)).drain =
        cleanupLoop noFailure group := by
      unfold finalBranch cleanup
      simp only [noFailure, Bool.false_eq_true, if_false]
    refine ⟨Step.exit _ noFailure group (late 16 (le_refl 16)).2, rfl, ?_, ?_⟩
    · rw [hd]
      exact cleanupLoop_noFailure group
    · rw [hd]
      exact cleanupLoop_noFailure_attempted group

set_option maxRecDepth 20000 in
/-- Witness for C11: the state at the end of the countdown is reached by the
scenario; sixteen ticks from it bring the demand to 400 with the process in its
shutdown sequence, and the drain at the end of that sequence, without failures,
empties a listed group of four. -/
theorem descent_reaches_floor_and_drains_witness :
    Reachable CONFIG decreasingStart ∧
      (ticks CONFIG (okRuntime []) 16 decreasingStart).vars.currentUsers = 400 ∧
      (ticks CONFIG (okRuntime []) 16 decreasingStart).phase = ProcessPhase.stopping ∧
      (finalBranch noFailure [containerA, containerB, containerC, containerD]
        (ticks CONFIG (okRuntime []) 16 decreasingStart)).drain.remaining = [] :=
  have h := descent_reaches_floor_and_drains decreasingStart (okRuntime []) rfl rfl rfl rfl
  ⟨steps_runEvents CONFIG countdownEvents initSys decreasingStart (by decide),
    h.2.2.1, h.2.2.2.1, (h.2.2.2.2.2 _).2.2.1⟩

/-! ## Ticks during the pause -/

set_option maxRecDepth 20000 in
/-- C12 (counterexample): the paused state of the countdown (demand 2000, four
containers desired) is reached after twenty-one ticks; a tick in it that finds
one container listed issues three creation attempts, and one that finds five
issues a termination. -/
theorem paused_tick_still_scales :
    ticks CONFIG (okRuntime []) 21 initSys = pausedAtCeiling ∧
      Reachable CONFIG pausedAtCeiling ∧
      pausedAtCeiling.vars.simulationPaused = true ∧
      (simulationLoop CONFIG (okRuntime [containerA]) pausedAtCeiling).scaling =
        { created := [2, 3, 4], deleted := [] } ∧
      (simulationLoop CONFIG (okRuntime [containerA, containerB, containerC, containerD, containerE])
        pausedAtCeiling).scaling = { created := [], deleted := [containerE] } := by
  have h : ticks CONFIG (okRuntime []) 21 initSys = pausedAtCeiling := by decide
  refine ⟨h, ?_, rfl, by decide, by decide⟩
  rw [← h]
  exact steps_ticks CONFIG (okRuntime []) 21 initSys (by decide)

/-- C12 (amended): for every state with `simulationPaused = true`, a tick leaves
the demand unchanged; the scaling step is not suspended: the tick issues what the
scaling conditional gives for the demand and the listing, as in any other
tick. -/
theorem paused_tick_keeps_demand (cfg : Config) (rt : TickRuntime)
    (σ : Sys) (hp : σ.vars.simulationPaused = true) :
    (simulationLoop cfg rt σ).next.vars.currentUsers = σ.vars.currentUsers ∧
      scalingStep cfg σ.vars.currentUsers rt =
        (if (simulationLoop cfg rt σ).aborted then none
         else some (simulationLoop cfg rt σ).scaling) := by
  refine ⟨?_, simulationLoop_scaling cfg rt σ⟩
  rw [simulationLoop_next]
  split
  · rfl
  · split
    · rfl
    · rw [applyUpdate_vars]
      show clampedStep cfg σ.vars = σ.vars.currentUsers
      unfold clampedStep
      simp only [hp, if_true]

/-- Witness for C12: a tick in the paused state of the countdown that finds one
container listed keeps the demand at 2000. -/
theorem paused_tick_keeps_demand_witness :
    pausedAtCeiling.vars.simulationPaused = true ∧
      (simulationLoop CONFIG (okRuntime [containerA]) pausedAtCeiling).next.vars.currentUsers = 2000 :=
  ⟨rfl, (paused_tick_keeps_demand CONFIG (okRuntime [containerA]) pausedAtCeiling rfl).1⟩

/-! ## Failures during the drain -/

/-- C13 (evaluation at the failing input): with the running containers `A` and
`B` in the group and only the stop of `A` throwing, `cleanup()` calls the stop
of `A` and nothing else: the removal of `B` is never attempted and `B`, whose own
stop and removal would succeed, stays in the group. -/
theorem cleanup_stops_at_first_failure :
    failStopA (RuntimeOp.stop "B") = false ∧ failStopA (RuntimeOp.remove "B") = false ∧
      failStopA RuntimeOp.list = false ∧
      cleanup failStopA [containerA, containerB] =
        { attempted := [RuntimeOp.stop "A"], remaining := [containerA, containerB] } ∧
      RuntimeOp.remove "B" ∉ (cleanup failStopA [containerA, containerB]).attempted ∧
      containerB ∈ (cleanup failStopA [containerA, containerB]).remaining := by
  refine ⟨by decide, by decide, by decide, by decide, by decide, by decide⟩

end AutoScaler
